import Mathlib

/-!
ReconstructionData (gui/tools/ReconstructionData.cxx)

A shallow embedding of the camera geometry adapter and proofs of its contract.

Conventions of the embedding

* A C++ `double` is a value of `Double`, a model of IEEE 754 binary64: every sum, product and
  quotient is rounded to the nearest representable value, ties to even, with signed zeros,
  infinities and NaN.
* A C++ `int` is an `Int` with the 32-bit range made explicit: signed overflow and the
  conversion of an unrepresentable double have no defined result, the narrowing of a wider
  integer wraps modulo 2^32.
* A pointer member of the class is an `Option`: `none` is a null (or never initialised)
  pointer.  Matrices and images are values; reference counting is not represented.
* An operation whose C++ execution has no defined result (a null pointer is dereferenced, an
  array is read out of bounds, an `int` overflows, a double that does not fit is converted to
  `int`) returns `none`.
-/

/-- A value of the C++ type `double` (IEEE 754 binary64): NaN, an infinity, or a sign and a
non-negative magnitude. -/
inductive Double where
  | nan
  | inf (negative : Bool)
  | finite (negative : Bool) (magnitude : ℚ)
  deriving DecidableEq

namespace Double

/-- Floor of the binary logarithm of a positive natural number, by repeated halving. -/
def log2Aux : Nat → Nat → Nat
  | 0, _ => 0
  | fuel + 1, n => if n < 2 then 0 else log2Aux fuel (n / 2) + 1

/-- Floor of the binary logarithm of a positive natural number. -/
def log2 (n : Nat) : Nat := log2Aux n n

/-- Whether `2 ^ e ≤ n / d`. -/
def powLe (e : Int) (n d : Nat) : Bool :=
  if 0 ≤ e then decide (d * 2 ^ e.toNat ≤ n) else decide (d ≤ n * 2 ^ (-e).toNat)

/-- The positive magnitude `n / d` rounded to binary64, to nearest with ties to even: 53
significant bits, exponent at least -1022 (below that the spacing stays 2^-1074); `none` when
the rounded magnitude reaches 2^1024 (overflow). -/
def roundNearestEven (n d : Nat) : Option ℚ :=
  let e0 : Int := (log2 n : Int) - (log2 d : Int)
  let e : Int := if powLe e0 n d then e0 else e0 - 1
  let sh : Int := max e (-1022) - 52
  let num : Nat := if sh ≤ 0 then n * 2 ^ (-sh).toNat else n
  let den : Nat := if sh ≤ 0 then d else d * 2 ^ sh.toNat
  let f : Nat := num / den
  let r : Nat := num % den
  let k : Nat := if 2 * r < den then f else if den < 2 * r then f + 1
    else if f % 2 = 0 then f else f + 1
  if 0 ≤ sh ∧ 2 ^ 1024 ≤ k * 2 ^ sh.toNat then none
  else some (if sh ≤ 0 then mkRat k (2 ^ (-sh).toNat) else ((k * 2 ^ sh.toNat : Nat) : ℚ))

/-- The double nearest to the real number with the given sign and magnitude. -/
def ofMagnitude (negative : Bool) (m : ℚ) : Double :=
  if m = 0 then finite negative 0
  else
    match roundNearestEven m.num.natAbs m.den with
    | none => inf negative
    | some v => finite negative v

/-- The rational number with the given sign and magnitude. -/
def signed (negative : Bool) (m : ℚ) : ℚ := if negative then -m else m

/-- Addition of doubles. -/
def add : Double → Double → Double
  | nan, _ => nan
  | _, nan => nan
  | inf s, inf t => if s = t then inf s else nan
  | inf s, finite _ _ => inf s
  | finite _ _, inf t => inf t
  | finite s a, finite t b =>
    if signed s a + signed t b = 0 then (if s = t then finite s 0 else finite false 0)
    else ofMagnitude (decide (signed s a + signed t b < 0)) |signed s a + signed t b|

/-- Multiplication of doubles. -/
def mul : Double → Double → Double
  | nan, _ => nan
  | _, nan => nan
  | inf s, inf t => inf (xor s t)
  | inf s, finite t b => if b = 0 then nan else inf (xor s t)
  | finite s a, inf t => if a = 0 then nan else inf (xor s t)
  | finite s a, finite t b => ofMagnitude (xor s t) (a * b)

/-- Division of doubles. -/
def div : Double → Double → Double
  | nan, _ => nan
  | _, nan => nan
  | inf _, inf _ => nan
  | inf s, finite t _ => inf (xor s t)
  | finite s _, inf t => finite (xor s t) 0
  | finite s a, finite t b =>
    if b = 0 then (if a = 0 then nan else inf (xor s t))
    else ofMagnitude (xor s t) (a / b)

/-- Negation of a double. -/
def neg : Double → Double
  | nan => nan
  | inf s => inf (!s)
  | finite s a => finite (!s) a

/-- The function `std::round`: the nearest integral value, halves away from zero; NaN and the
infinities are returned unchanged. -/
def round : Double → Double
  | nan => nan
  | inf s => inf s
  | finite s a => finite s ((a + 1 / 2).floor : Int)

/-- Smallest value of a 32-bit `int`. -/
def INT_MIN : Int := -2147483648

/-- Largest value of a 32-bit `int`. -/
def INT_MAX : Int := 2147483647

/-- Conversion of a double to `int`: truncation toward zero, defined only when the truncated
value is an `int`; NaN and the infinities have no defined conversion. -/
def toInt : Double → Option Int
  | finite s a =>
    if INT_MIN ≤ (if s then -a.floor else a.floor) ∧ (if s then -a.floor else a.floor) ≤ INT_MAX
    then some (if s then -a.floor else a.floor) else none
  | _ => none

/-- Conversion of a non-negative integer to double. -/
def ofNat (n : Nat) : Double := ofMagnitude false n

/-- The real value of a finite double, 0 for NaN and the infinities. -/
def toRat : Double → ℚ
  | finite s a => signed s a
  | _ => 0

/-- Whether a double is finite (neither NaN nor an infinity). -/
def isFinite : Double → Bool
  | finite _ _ => true
  | _ => false

/-- Whether a double is a zero, of either sign. -/
def isZero : Double → Prop
  | finite _ a => a = 0
  | _ => False

/-- Whether a double is a finite value of the type: its magnitude is non-negative and
representable, that is, rounding leaves it unchanged. -/
def isValue : Double → Prop
  | finite s a => 0 ≤ a ∧ ofMagnitude s a = finite s a
  | _ => False

/-- Numerical equality of two doubles that are not NaN: the same value, or two zeros of any
signs. -/
def numEq (x y : Double) : Prop := x = y ∨ (x.isZero ∧ y.isZero)

instance : Zero Double := ⟨finite false 0⟩

instance : One Double := ⟨finite false 1⟩

instance : NatCast Double := ⟨ofNat⟩

instance : Add Double := ⟨add⟩

instance : Mul Double := ⟨mul⟩

instance : Div Double := ⟨div⟩

instance : Neg Double := ⟨neg⟩

end Double

namespace ReconstructionData

/-! ## Library objects used by the adapter -/

/-- A vector of three doubles (`double[3]`, `vtkVector3d`, `vector_3d`). -/
abbrev Vec3 := Fin 3 → Double

/-- Modelled from the spec: `vtkMatrix3x3` is library code outside the repository; it is a
3×3 array of doubles read and written by `GetElement` / `SetElement`. -/
abbrev vtkMatrix3x3 := Matrix (Fin 3) (Fin 3) Double

/-- Modelled from the spec: `vtkMatrix4x4` is library code outside the repository; it is a
4×4 array of doubles read and written by `GetElement` / `SetElement`. -/
abbrev vtkMatrix4x4 := Matrix (Fin 4) (Fin 4) Double

/-- Modelled from the spec: `vtkMatrix3x3::New()` yields the identity matrix. -/
def vtkMatrix3x3.New : vtkMatrix3x3 := fun i j => if i = j then 1 else 0

/-- Modelled from the spec: `vtkMatrix3x3::SetElement(i, j, value)`. -/
def vtkMatrix3x3.SetElement (m : vtkMatrix3x3) (i j : Fin 3) (value : Double) : vtkMatrix3x3 :=
  fun a b => if a = i ∧ b = j then value else m a b

/-- Modelled from the spec: `vtkMatrix3x3::GetElement(i, j)`. -/
def vtkMatrix3x3.GetElement (m : vtkMatrix3x3) (i j : Fin 3) : Double := m i j

/-- Modelled from the spec: `vtkMatrix4x4::New()` yields the identity matrix. -/
def vtkMatrix4x4.New : vtkMatrix4x4 := fun i j => if i = j then 1 else 0

/-- Modelled from the spec: `vtkMatrix4x4::Identity()` overwrites the matrix with the
identity. -/
def vtkMatrix4x4.Identity (_m : vtkMatrix4x4) : vtkMatrix4x4 :=
  fun i j => if i = j then 1 else 0

/-- Modelled from the spec: `vtkMatrix4x4::SetElement(i, j, value)`. -/
def vtkMatrix4x4.SetElement (m : vtkMatrix4x4) (i j : Fin 4) (value : Double) : vtkMatrix4x4 :=
  fun a b => if a = i ∧ b = j then value else m a b

/-- Modelled from the spec: `vtkMatrix4x4::GetElement(i, j)`. -/
def vtkMatrix4x4.GetElement (m : vtkMatrix4x4) (i j : Fin 4) : Double := m i j

/-- Modelled from the spec: `vtkTransform` is library code outside the repository.  Only the
matrix it currently holds is represented. -/
structure vtkTransform where
  /-- The 4×4 matrix the transform applies. -/
  Matrix : vtkMatrix4x4

/-- Modelled from the spec: `vtkTransform::New()` is the identity transform. -/
def vtkTransform.New : vtkTransform := ⟨vtkMatrix4x4.New⟩

/-- Modelled from the spec: `vtkTransform::SetMatrix(m)` copies the sixteen elements of `m`
into the transform. -/
def vtkTransform.SetMatrix (_t : vtkTransform) (m : vtkMatrix4x4) : vtkTransform := ⟨m⟩

/-- Modelled from the spec: `vtkTransform::TransformPoint` is the point transform, linear part
plus translation column (rows 0-2 of the matrix), the three products summed from left to right
and the translation added last. -/
def vtkTransform.TransformPoint (t : vtkTransform) (p : Vec3) : Vec3 :=
  fun i =>
    t.Matrix (Fin.castSucc i) 0 * p 0 + t.Matrix (Fin.castSucc i) 1 * p 1
      + t.Matrix (Fin.castSucc i) 2 * p 2 + t.Matrix (Fin.castSucc i) 3

/-- Modelled from the spec: `vtkTransform::TransformVector` is the vector transform, linear
part only, no translation, the three products summed from left to right. -/
def vtkTransform.TransformVector (t : vtkTransform) (v : Vec3) : Vec3 :=
  fun i =>
    t.Matrix (Fin.castSucc i) 0 * v 0 + t.Matrix (Fin.castSucc i) 1 * v 1
      + t.Matrix (Fin.castSucc i) 2 * v 2

/-- Modelled from the spec: a point-data array of the image.  `vtkUnsignedCharArray` holds
`NumberOfComponents` bytes per tuple, tuple after tuple; an array of any other element type is
`other`. -/
inductive vtkDataArray where
  | unsignedChar (NumberOfComponents : Nat) (Data : List (Fin 256))
  | other
  deriving DecidableEq

/-- Modelled from the spec: `vtkImageData` is library code outside the repository.  The image
has an extent `[xmin, xmax, ymin, ymax, zmin, zmax]` and a list of point-data arrays. -/
structure vtkImageData where
  /-- The six extent bounds. -/
  Extent : Fin 6 → Int
  /-- The arrays of `GetPointData()`, in index order. -/
  PointData : List vtkDataArray

/-- Modelled from the spec: `vtkImageData::GetDimensions()`, the number of points along each
axis. -/
def vtkImageData.GetDimensions (img : vtkImageData) : Fin 3 → Int :=
  ![img.Extent 1 - img.Extent 0 + 1, img.Extent 3 - img.Extent 2 + 1,
    img.Extent 5 - img.Extent 4 + 1]

/-- Modelled from the spec: `vtkImageData::ComputePointId(ijk)`, the row-major index
of a point of the structured grid inside the extent, a 64-bit `vtkIdType`. -/
def vtkImageData.ComputePointId (img : vtkImageData) (ijk : Fin 3 → Int) : Int :=
  (ijk 2 - img.Extent 4) * (img.GetDimensions 0) * (img.GetDimensions 1)
    + (ijk 1 - img.Extent 2) * (img.GetDimensions 0) + (ijk 0 - img.Extent 0)

/-- Modelled from the spec: `GetPointData()->GetArray(0)`; null when there is no array. -/
def vtkImageData.GetArray0 (img : vtkImageData) : Option vtkDataArray := img.PointData.head?

/-- Modelled from the spec: `vtkUnsignedCharArray::SafeDownCast`; the bytes and the tuple size
of an unsigned-char array, null for a null pointer or any other array. -/
def vtkUnsignedCharArray.SafeDownCast : Option vtkDataArray → Option (Nat × List (Fin 256))
  | some (vtkDataArray.unsignedChar n d) => some (n, d)
  | _ => none

/-- Modelled from the spec: `GetTuple3(id)` of an unsigned-char array: the three components of
tuple `id` as doubles.  Undefined unless the array has three components and holds the tuple. -/
def vtkUnsignedCharArray.GetTuple3 (color : Nat × List (Fin 256)) (id : Int) : Option Vec3 :=
  if color.1 = 3 ∧ 0 ≤ id then
    match color.2[3 * id.toNat]?, color.2[3 * id.toNat + 1]?, color.2[3 * id.toNat + 2]? with
    | some r, some g, some b => some ![Double.ofNat r.val, Double.ofNat g.val, Double.ofNat b.val]
    | _, _, _ => none
  else none

/-- Modelled from the spec: the camera handed to the adapter (`kwiver::vital::camera_sptr`).
A perspective camera gives an intrinsic matrix, a rotation matrix and a translation; any other
camera fails the cast to `camera_perspective`. -/
inductive camera where
  | perspective (K : Matrix (Fin 3) (Fin 3) Double) (R : Matrix (Fin 3) (Fin 3) Double)
      (T : Vec3)
  | other

/-- Whether an integer is a value of the 32-bit type `int`. -/
def isInt (z : Int) : Prop := Double.INT_MIN ≤ z ∧ z ≤ Double.INT_MAX

instance (z : Int) : Decidable (isInt z) := by unfold isInt; infer_instance

/-- Conversion of a 64-bit `vtkIdType` to `int`: the value modulo 2^32 in two's complement. -/
def narrowToInt (z : Int) : Int := (z + 2147483648) % 4294967296 - 2147483648

/-! ## The adapter -/

/-- What `GetColorValue` writes to `std::cerr`. -/
inductive CerrLine where
  | noColorArray
  deriving DecidableEq

end ReconstructionData

/-- The members of `class ReconstructionData`. -/
structure ReconstructionData where
  /-- The member `Image`. -/
  Image : Option ReconstructionData.vtkImageData
  /-- The member `MatrixK`. -/
  MatrixK : Option ReconstructionData.vtkMatrix3x3
  /-- The member `Matrix4K`. -/
  Matrix4K : Option ReconstructionData.vtkMatrix4x4
  /-- The member `MatrixRT`. -/
  MatrixRT : Option ReconstructionData.vtkMatrix4x4
  /-- The member `TransformWorldToCamera`. -/
  TransformWorldToCamera : Option ReconstructionData.vtkTransform
  /-- The member `TransformCameraToImage`. -/
  TransformCameraToImage : Option ReconstructionData.vtkTransform

namespace ReconstructionData

/-- The function `ExtractCameraData(cam, matrixK, matrixRT)`: the two loops that copy K, R and T
and the loop that sets the bottom row of RT.  `none` when the camera is not a perspective
camera (the cast yields null and is dereferenced). -/
def ExtractCameraData (cam : camera) (matrixK : vtkMatrix3x3) (matrixRT : vtkMatrix4x4) :
    Option (vtkMatrix3x3 × vtkMatrix4x4) :=
  match cam with
  | camera.other => none
  | camera.perspective K R T =>
    let copied : vtkMatrix3x3 × vtkMatrix4x4 :=
      ([0, 1, 2] : List (Fin 3)).foldl
        (fun acc i =>
          let inner : vtkMatrix3x3 × vtkMatrix4x4 :=
            ([0, 1, 2] : List (Fin 3)).foldl
              (fun a j =>
                (a.1.SetElement i j (K i j),
                 a.2.SetElement (Fin.castSucc i) (Fin.castSucc j) (R i j)))
              acc
          (inner.1, inner.2.SetElement (Fin.castSucc i) 3 (T i)))
        (matrixK, matrixRT)
    let bottom : vtkMatrix4x4 :=
      ([0, 1, 2] : List (Fin 3)).foldl
        (fun m j => m.SetElement 3 (Fin.castSucc j) 0) copied.2
    some (copied.1, bottom.SetElement 3 3 1)

/-- The default constructor: `Image`, `MatrixK` and `MatrixRT` are null, the other members are
not initialised. -/
def default : ReconstructionData :=
  { Image := none, MatrixK := none, Matrix4K := none, MatrixRT := none,
    TransformWorldToCamera := none, TransformCameraToImage := none }

/-- The method `SetImage(data)`. -/
def SetImage (self : ReconstructionData) (data : vtkImageData) : Option ReconstructionData :=
  some { self with Image := some data }

/-- The method `SetMatrixK(matrix)`: stores `matrix`, rebuilds `Matrix4K` from the identity and
the loop over the 3×3 block, and hands it to the camera→image transform. -/
def SetMatrixK (self : ReconstructionData) (matrix : vtkMatrix3x3) :
    Option ReconstructionData :=
  let matrixK := matrix
  let matrix4K : vtkMatrix4x4 :=
    ([0, 1, 2] : List (Fin 3)).foldl
      (fun m i =>
        ([0, 1, 2] : List (Fin 3)).foldl
          (fun m' j =>
            m'.SetElement (Fin.castSucc i) (Fin.castSucc j) (matrixK.GetElement i j))
          m)
      (vtkMatrix4x4.Identity vtkMatrix4x4.New)
  match self.TransformCameraToImage with
  | none => none
  | some t =>
    some { self with
      MatrixK := some matrixK
      Matrix4K := some matrix4K
      TransformCameraToImage := some (t.SetMatrix matrix4K) }

/-- The method `SetMatrixRT(matrix)`: stores `matrix` and hands it to the world→camera
transform. -/
def SetMatrixRT (self : ReconstructionData) (matrix : vtkMatrix4x4) :
    Option ReconstructionData :=
  match self.TransformWorldToCamera with
  | none => none
  | some t =>
    some { self with
      MatrixRT := some matrix
      TransformWorldToCamera := some (t.SetMatrix matrix) }

/-- The constructor `ReconstructionData(image, camera)`; `image` is the image already converted
by `vitalToVtkImage`. -/
def construct (image : vtkImageData) (cam : camera) : Option ReconstructionData := do
  let self : ReconstructionData :=
    { default with
      Image := some image
      TransformWorldToCamera := some vtkTransform.New
      TransformCameraToImage := some vtkTransform.New
      MatrixRT := some vtkMatrix4x4.New
      MatrixK := some vtkMatrix3x3.New
      Matrix4K := some vtkMatrix4x4.New }
  let (K, RT) ← ExtractCameraData cam vtkMatrix3x3.New vtkMatrix4x4.New
  let self ← self.SetMatrixK K
  self.SetMatrixRT RT

/-- The getter `Get3MatrixK()`. -/
def Get3MatrixK (self : ReconstructionData) : Option vtkMatrix3x3 := self.MatrixK

/-- The getter `Get4MatrixK()`. -/
def Get4MatrixK (self : ReconstructionData) : Option vtkMatrix4x4 := self.Matrix4K

/-- The getter `GetMatrixTR()`. -/
def GetMatrixTR (self : ReconstructionData) : Option vtkMatrix4x4 := self.MatrixRT

/-- The getter `GetImage()`. -/
def GetImage (self : ReconstructionData) : Option vtkImageData := self.Image

/-- The method `GetCameraCenter()`; `none` when `MatrixRT` is null. -/
def GetCameraCenter (self : ReconstructionData) : Option Vec3 :=
  match self.MatrixRT with
  | none => none
  | some m =>
    some ![-(m.GetElement 0 0 * m.GetElement 0 3
              + m.GetElement 1 0 * m.GetElement 1 3
              + m.GetElement 2 0 * m.GetElement 2 3),
           -(m.GetElement 0 1 * m.GetElement 0 3
              + m.GetElement 1 1 * m.GetElement 1 3
              + m.GetElement 2 1 * m.GetElement 2 3),
           -(m.GetElement 0 2 * m.GetElement 0 3
              + m.GetElement 1 2 * m.GetElement 1 3
              + m.GetElement 2 2 * m.GetElement 2 3)]

/-- The camera-space coordinates of a world point, the first step of
`TransformWorldToImagePosition`. -/
def cameraCoordinate (self : ReconstructionData) (worldCoordinate : Vec3) : Option Vec3 :=
  self.TransformWorldToCamera.map (fun t => t.TransformPoint worldCoordinate)

/-- The image-space coordinates before the perspective division, the second step of
`TransformWorldToImagePosition`. -/
def imageCoordinate (self : ReconstructionData) (worldCoordinate : Vec3) : Option Vec3 :=
  match self.cameraCoordinate worldCoordinate, self.TransformCameraToImage with
  | some c, some t => some (t.TransformVector c)
  | _, _ => none

/-- The method `TransformWorldToImagePosition(worldCoordinate, pixelCoordinate)`; the result is
the pair written to `pixelCoordinate`: the two quotients by the third image coordinate, each
passed through `std::round` and converted to `int`. -/
def TransformWorldToImagePosition (self : ReconstructionData) (worldCoordinate : Vec3) :
    Option (Int × Int) :=
  match self.imageCoordinate worldCoordinate with
  | none => none
  | some i =>
    match Double.toInt (Double.round (i 0 / i 2)), Double.toInt (Double.round (i 1 / i 2)) with
    | some px, some py => some (px, py)
    | _, _ => none

/-- The outcome of `GetColorValue`: the contents of `rgb` on return and the lines written to
`std::cerr`. -/
structure ColorValue where
  /-- The three entries of the output array. -/
  rgb : Vec3
  /-- The lines logged by the call. -/
  cerr : List CerrLine

/-- The method `GetColorValue(pixelPosition, rgb)`; `rgb` is the content of the output array
before the call.  The row index is computed in `int`, and the point id returned by
`ComputePointId` is stored in an `int`. -/
def GetColorValue (self : ReconstructionData) (pixelPosition : Fin 2 → Int) (rgb : Vec3) :
    Option ColorValue :=
  match self.Image with
  | none => none
  | some image =>
    match vtkUnsignedCharArray.SafeDownCast image.GetArray0 with
    | none => some { rgb := rgb, cerr := [CerrLine.noColorArray] }
    | some color =>
      let imageDims := image.GetDimensions
      if isInt (imageDims 1 - 1) ∧ isInt (imageDims 1 - 1 - pixelPosition 1) then
        let pix : Fin 3 → Int := ![pixelPosition 0, imageDims 1 - 1 - pixelPosition 1, 0]
        let id : Int := narrowToInt (image.ComputePointId pix)
        match vtkUnsignedCharArray.GetTuple3 color id with
        | none => none
        | some temp =>
          some { rgb := ([0, 1, 2] : List (Fin 3)).foldl
                          (fun out i => Function.update out i (temp i)) rgb,
                 cerr := [] }
      else none

/-! ## Sequences of setter calls -/

/-- A call of one of the three setters. -/
inductive Call where
  | SetMatrixK (matrix : vtkMatrix3x3)
  | SetMatrixRT (matrix : vtkMatrix4x4)
  | SetImage (data : vtkImageData)

/-- One setter call on an adapter. -/
def step (self : ReconstructionData) : Call → Option ReconstructionData
  | Call.SetMatrixK m => self.SetMatrixK m
  | Call.SetMatrixRT m => self.SetMatrixRT m
  | Call.SetImage d => self.SetImage d

/-- The calls of a list, one after the other; `none` as soon as one call fails. -/
def run (self : ReconstructionData) : List Call → Option ReconstructionData
  | [] => some self
  | c :: cs =>
    match self.step c with
    | none => none
    | some next => run next cs

/-! ## Vocabulary of the specification -/

/-- The rotation block of a pose matrix: rows and columns 0-2. -/
def rotationBlock (RT : vtkMatrix4x4) : Matrix (Fin 3) (Fin 3) Double :=
  fun i j => RT (Fin.castSucc i) (Fin.castSucc j)

/-- The translation column of a pose matrix: column 3, rows 0-2. -/
def translationColumn (RT : vtkMatrix4x4) : Vec3 := fun i => RT (Fin.castSucc i) 3

/-- The identity-augmented 4×4 copy of a 3×3 matrix, as the data model describes K4. -/
def padded (M : vtkMatrix3x3) : vtkMatrix4x4 :=
  !![M 0 0, M 0 1, M 0 2, 0;
     M 1 0, M 1 1, M 1 2, 0;
     M 2 0, M 2 1, M 2 2, 0;
     0, 0, 0, 1]

/-- The pose matrix as the data model describes it: rotation block, translation column,
bottom row `[0, 0, 0, 1]`. -/
def poseMatrix (R : Matrix (Fin 3) (Fin 3) Double) (T : Vec3) : vtkMatrix4x4 :=
  !![R 0 0, R 0 1, R 0 2, T 0;
     R 1 0, R 1 1, R 1 2, T 1;
     R 2 0, R 2 1, R 2 2, T 2;
     0, 0, 0, 1]

/-- The cached transforms agree with the stored matrices: `K` and `RT` are the current
matrices, `Matrix4K` is the padded `K`, and each transform holds its matrix. -/
def Synced (self : ReconstructionData) (K : vtkMatrix3x3) (RT : vtkMatrix4x4) : Prop :=
  self.MatrixK = some K ∧ self.Matrix4K = some (padded K) ∧ self.MatrixRT = some RT ∧
    self.TransformWorldToCamera = some ⟨RT⟩ ∧ self.TransformCameraToImage = some ⟨padded K⟩

/-- The intrinsic matrix in force after a list of calls: the argument of the most recent
`SetMatrixK`, or the initial one. -/
def lastK : vtkMatrix3x3 → List Call → vtkMatrix3x3
  | K, [] => K
  | _, Call.SetMatrixK m :: cs => lastK m cs
  | K, Call.SetMatrixRT _ :: cs => lastK K cs
  | K, Call.SetImage _ :: cs => lastK K cs

/-- The pose matrix in force after a list of calls: the argument of the most recent
`SetMatrixRT`, or the initial one. -/
def lastRT : vtkMatrix4x4 → List Call → vtkMatrix4x4
  | RT, [] => RT
  | RT, Call.SetMatrixK _ :: cs => lastRT RT cs
  | _, Call.SetMatrixRT m :: cs => lastRT m cs
  | RT, Call.SetImage _ :: cs => lastRT RT cs

/-- The camera-space point `c = R·X + T` of a world point `X`, in double arithmetic: per row
the three products summed from left to right, then the translation. -/
def cameraPoint (RT : vtkMatrix4x4) (X : Vec3) : Vec3 :=
  fun i => rotationBlock RT i 0 * X 0 + rotationBlock RT i 1 * X 1
    + rotationBlock RT i 2 * X 2 + translationColumn RT i

/-- The image-space point `i = K·c` of a world point `X`, before the perspective division, in
double arithmetic: per row the three products summed from left to right. -/
def imagePoint (K : vtkMatrix3x3) (RT : vtkMatrix4x4) (X : Vec3) : Vec3 :=
  fun i => K i 0 * cameraPoint RT X 0 + K i 1 * cameraPoint RT X 1
    + K i 2 * cameraPoint RT X 2

/-- An image without pixels and without point-data arrays. -/
def emptyImage : vtkImageData := { Extent := ![0, -1, 0, -1, 0, -1], PointData := [] }

/-- A sample intrinsic matrix: focal length 1000, principal point (320, 240). -/
def sampleK : vtkMatrix3x3 := !![1000, 0, 320; 0, 1000, 240; 0, 0, 1]

/-- A sample rotation: a quarter turn about the optical axis. -/
def sampleR : Matrix (Fin 3) (Fin 3) Double := !![0, -1, 0; 1, 0, 0; 0, 0, 1]

/-- A sample translation. -/
def sampleT : Vec3 := ![1, 2, 3]

/-- The adapter constructed from the sample camera and an empty image. -/
def sampleAdapter : ReconstructionData :=
  { Image := some emptyImage, MatrixK := some sampleK, Matrix4K := some (padded sampleK),
    MatrixRT := some (poseMatrix sampleR sampleT),
    TransformWorldToCamera := some ⟨poseMatrix sampleR sampleT⟩,
    TransformCameraToImage := some ⟨padded sampleK⟩ }

/-- The identity matrix as intrinsic matrix or rotation. -/
def identity3 : Matrix (Fin 3) (Fin 3) Double := !![1, 0, 0; 0, 1, 0; 0, 0, 1]

/-- The adapter constructed from the camera with identity intrinsics, identity rotation and
zero translation, and an empty image. -/
def identityAdapter : ReconstructionData :=
  { Image := some emptyImage, MatrixK := some identity3, Matrix4K := some (padded identity3),
    MatrixRT := some (poseMatrix identity3 ![0, 0, 0]),
    TransformWorldToCamera := some ⟨poseMatrix identity3 ![0, 0, 0]⟩,
    TransformCameraToImage := some ⟨padded identity3⟩ }

/-- A sample image, 2 pixels wide and 3 pixels high, with an RGB colour array: the pixel of
buffer row `r` and column `c` holds `(10·(2r+c), 10·(2r+c)+1, 10·(2r+c)+2)`. -/
def sampleImage : vtkImageData :=
  { Extent := ![0, 1, 0, 2, 0, 0],
    PointData := [vtkDataArray.unsignedChar 3
      [0, 1, 2, 10, 11, 12, 20, 21, 22, 30, 31, 32, 40, 41, 42, 50, 51, 52]] }

/-- A sample image whose only point-data array is not an unsigned-char array. -/
def depthImage : vtkImageData :=
  { Extent := ![0, 1, 0, 2, 0, 0], PointData := [vtkDataArray.other] }

/-- An adapter whose pose matrix has first column (1, 1, 0) and translation (2^53, 1, 0). -/
def roundingAdapter : ReconstructionData :=
  { sampleAdapter with
    MatrixRT := some !![1, 0, 0, 9007199254740992; 1, 1, 0, 1; 0, 0, 1, 0; 0, 0, 0, 1] }

/-- An adapter whose pose matrix has an infinite entry in the rotation block and a zero
translation. -/
def infiniteAdapter : ReconstructionData :=
  { sampleAdapter with
    MatrixRT := some !![Double.inf false, 0, 0, 0; 0, 1, 0, 0; 0, 0, 1, 0; 0, 0, 0, 1] }

/-- The adapter with identity intrinsics, identity rotation and translation (-2^-53, 0, 0). -/
def shiftedAdapter : ReconstructionData :=
  { Image := some emptyImage, MatrixK := some identity3, Matrix4K := some (padded identity3),
    MatrixRT := some (poseMatrix identity3 ![Double.finite true (1 / 9007199254740992), 0, 0]),
    TransformWorldToCamera :=
      some ⟨poseMatrix identity3 ![Double.finite true (1 / 9007199254740992), 0, 0]⟩,
    TransformCameraToImage := some ⟨padded identity3⟩ }

/-- The bytes of an image of 65536 × 32769 pixels, all zero: three per pixel. -/
def largeData : List (Fin 256) := List.replicate (3 * (65536 * 32769)) 0

/-- An image of 65536 × 32769 pixels with an RGB colour array. -/
def largeImage : vtkImageData :=
  { Extent := ![0, 65535, 0, 32768, 0, 0],
    PointData := [vtkDataArray.unsignedChar 3 largeData] }

/-! ## Auxiliary facts -/

theorem castSucc_two : Fin.castSucc (2 : Fin 3) = (2 : Fin 4) := rfl

theorem SetMatrixK_eq (self : ReconstructionData) (t : vtkTransform) (M : vtkMatrix3x3)
    (h : self.TransformCameraToImage = some t) :
    self.SetMatrixK M = some { self with
      MatrixK := some M
      Matrix4K := some (padded M)
      TransformCameraToImage := some ⟨padded M⟩ } := by
  have hpad : (([0, 1, 2] : List (Fin 3)).foldl
      (fun m i =>
        ([0, 1, 2] : List (Fin 3)).foldl
          (fun m' j =>
            vtkMatrix4x4.SetElement m' (Fin.castSucc i) (Fin.castSucc j)
              (vtkMatrix3x3.GetElement M i j))
          m)
      (vtkMatrix4x4.Identity vtkMatrix4x4.New)) = padded M := by
    funext a b
    fin_cases a <;> fin_cases b <;>
      simp [padded, vtkMatrix4x4.SetElement, vtkMatrix3x3.GetElement, vtkMatrix4x4.Identity,
        castSucc_two]
  simp only [SetMatrixK, h, hpad, vtkTransform.SetMatrix]

theorem SetMatrixRT_eq (self : ReconstructionData) (t : vtkTransform) (M : vtkMatrix4x4)
    (h : self.TransformWorldToCamera = some t) :
    self.SetMatrixRT M = some { self with
      MatrixRT := some M
      TransformWorldToCamera := some ⟨M⟩ } := by
  simp only [SetMatrixRT, h, vtkTransform.SetMatrix]

theorem ExtractCameraData_eq (K R : Matrix (Fin 3) (Fin 3) Double) (T : Vec3)
    (mK : vtkMatrix3x3) (mRT : vtkMatrix4x4) :
    ExtractCameraData (camera.perspective K R T) mK mRT = some (K, poseMatrix R T) := by
  simp only [ExtractCameraData, Option.some.injEq, Prod.mk.injEq]
  constructor
  · funext a b
    fin_cases a <;> fin_cases b <;> simp [vtkMatrix3x3.SetElement]
  · funext a b
    fin_cases a <;> fin_cases b <;> simp [poseMatrix, vtkMatrix4x4.SetElement, castSucc_two]

theorem construct_eq (image : vtkImageData) (K R : Matrix (Fin 3) (Fin 3) Double) (T : Vec3) :
    construct image (camera.perspective K R T) = some
      { Image := some image, MatrixK := some K, Matrix4K := some (padded K),
        MatrixRT := some (poseMatrix R T),
        TransformWorldToCamera := some ⟨poseMatrix R T⟩,
        TransformCameraToImage := some ⟨padded K⟩ } := by
  simp [construct, ExtractCameraData_eq, default]
  rw [SetMatrixK_eq _ vtkTransform.New K rfl]
  simp
  rw [SetMatrixRT_eq _ vtkTransform.New _ rfl]

theorem construct_synced (image : vtkImageData) (K R : Matrix (Fin 3) (Fin 3) Double) (T : Vec3) :
    ∃ rd, construct image (camera.perspective K R T) = some rd ∧
      Synced rd K (poseMatrix R T) :=
  ⟨_, construct_eq image K R T, rfl, rfl, rfl, rfl, rfl⟩

theorem cameraCoordinate_eq (self : ReconstructionData) (K : vtkMatrix3x3) (RT : vtkMatrix4x4)
    (h : Synced self K RT) (X : Vec3) :
    self.cameraCoordinate X = some (cameraPoint RT X) := by
  obtain ⟨-, -, -, hW, -⟩ := h
  simp only [cameraCoordinate, hW, Option.map_some', Option.some.injEq]
  rfl

theorem imageCoordinate_eq (self : ReconstructionData) (K : vtkMatrix3x3) (RT : vtkMatrix4x4)
    (h : Synced self K RT) (X : Vec3) :
    self.imageCoordinate X = some (imagePoint K RT X) := by
  have hc := cameraCoordinate_eq self K RT h X
  obtain ⟨-, -, -, -, hI⟩ := h
  simp only [imageCoordinate, hc, hI, Option.some.injEq]
  funext i
  fin_cases i <;>
    simp [vtkTransform.TransformVector, padded, castSucc_two, imagePoint]

theorem TransformWorldToImagePosition_of_synced (self : ReconstructionData) (K : vtkMatrix3x3)
    (RT : vtkMatrix4x4) (h : Synced self K RT) (X : Vec3) :
    self.TransformWorldToImagePosition X =
      match Double.toInt (Double.round (imagePoint K RT X 0 / imagePoint K RT X 2)),
        Double.toInt (Double.round (imagePoint K RT X 1 / imagePoint K RT X 2)) with
      | some px, some py => some (px, py)
      | _, _ => none := by
  simp only [TransformWorldToImagePosition, imageCoordinate_eq self K RT h X]

theorem sampleAdapter_constructed :
    construct emptyImage (camera.perspective sampleK sampleR sampleT) = some sampleAdapter :=
  construct_eq emptyImage sampleK sampleR sampleT

theorem identityAdapter_constructed :
    construct emptyImage (camera.perspective identity3 identity3 ![0, 0, 0])
      = some identityAdapter :=
  construct_eq emptyImage identity3 identity3 ![0, 0, 0]

theorem sampleAdapter_synced : Synced sampleAdapter sampleK (poseMatrix sampleR sampleT) :=
  ⟨rfl, rfl, rfl, rfl, rfl⟩

theorem identityAdapter_synced :
    Synced identityAdapter identity3 (poseMatrix identity3 ![0, 0, 0]) :=
  ⟨rfl, rfl, rfl, rfl, rfl⟩

theorem run_synced (calls : List Call) :
    ∀ (self : ReconstructionData) (K : vtkMatrix3x3) (RT : vtkMatrix4x4), Synced self K RT →
      ∃ rd, run self calls = some rd ∧ Synced rd (lastK K calls) (lastRT RT calls) := by
  induction calls with
  | nil => intro self K RT h; exact ⟨self, rfl, h⟩
  | cons c cs ih =>
    intro self K RT h
    cases c with
    | SetMatrixK m =>
      obtain ⟨rd, hrd, hs⟩ := ih
        { self with
          MatrixK := some m
          Matrix4K := some (padded m)
          TransformCameraToImage := some ⟨padded m⟩ } m RT
        ⟨rfl, rfl, h.2.2.1, h.2.2.2.1, rfl⟩
      refine ⟨rd, ?_, hs⟩
      simp only [run, step, SetMatrixK_eq self _ m h.2.2.2.2]
      exact hrd
    | SetMatrixRT m =>
      obtain ⟨rd, hrd, hs⟩ := ih
        { self with
          MatrixRT := some m
          TransformWorldToCamera := some ⟨m⟩ } K m
        ⟨h.1, h.2.1, rfl, rfl, h.2.2.2.2⟩
      refine ⟨rd, ?_, hs⟩
      simp only [run, step, SetMatrixRT_eq self _ m h.2.2.2.1]
      exact hrd
    | SetImage d =>
      obtain ⟨rd, hrd, hs⟩ := ih { self with Image := some d } K RT h
      refine ⟨rd, ?_, hs⟩
      simp only [run, step, SetImage]
      exact hrd

theorem lastRT_append_SetMatrixRT (cs : List Call) (M : vtkMatrix4x4) :
    ∀ RT : vtkMatrix4x4, lastRT RT (cs ++ [Call.SetMatrixRT M]) = M := by
  induction cs with
  | nil => intro RT; rfl
  | cons c cs ih => intro RT; cases c <;> exact ih _

theorem lastK_append_SetMatrixK (cs : List Call) (M : vtkMatrix3x3) :
    ∀ K : vtkMatrix3x3, lastK K (cs ++ [Call.SetMatrixK M]) = M := by
  induction cs with
  | nil => intro K; rfl
  | cons c cs ih => intro K; cases c <;> exact ih _

theorem rotationBlock_poseMatrix (R : Matrix (Fin 3) (Fin 3) Double) (T : Vec3) :
    rotationBlock (poseMatrix R T) = R := by
  funext i j
  fin_cases i <;> fin_cases j <;> simp [rotationBlock, poseMatrix, castSucc_two]

theorem translationColumn_poseMatrix (R : Matrix (Fin 3) (Fin 3) Double) (T : Vec3) :
    translationColumn (poseMatrix R T) = T := by
  funext i
  fin_cases i <;> simp [translationColumn, poseMatrix, castSucc_two]

theorem imagePoint_poseMatrix (K : vtkMatrix3x3) (RT : vtkMatrix4x4) (X : Vec3) :
    imagePoint K (poseMatrix (rotationBlock RT) (translationColumn RT)) X
      = imagePoint K RT X := by
  unfold imagePoint cameraPoint
  rw [rotationBlock_poseMatrix, translationColumn_poseMatrix]

theorem copy_tuple (temp rgb : Vec3) :
    ([0, 1, 2] : List (Fin 3)).foldl (fun out i => Function.update out i (temp i)) rgb
      = temp := by
  funext j
  fin_cases j <;> simp [Function.update]

/-! ## The claims -/

/-- C3: after `SetMatrixK(M)` on an adapter that has its camera→image transform,
`Get3MatrixK()` is `M`, and `Get4MatrixK()` has `M` as its top-left 3×3 block, zeros in the rest
of the fourth row and column, and 1 at (3,3), whatever the adapter held before. -/
theorem SetMatrixK_getters (self : ReconstructionData) (t : vtkTransform) (M : vtkMatrix3x3)
    (h : self.TransformCameraToImage = some t) :
    ∃ rd K4, self.SetMatrixK M = some rd ∧ rd.Get3MatrixK = some M ∧
      rd.Get4MatrixK = some K4 ∧
      (∀ i j : Fin 3, K4 (Fin.castSucc i) (Fin.castSucc j) = M i j) ∧
      (∀ i : Fin 3, K4 (Fin.castSucc i) 3 = 0 ∧ K4 3 (Fin.castSucc i) = 0) ∧
      K4 3 3 = 1 := by
  refine ⟨_, padded M, SetMatrixK_eq self t M h, rfl, rfl, ?_, ?_, rfl⟩
  · intro i j
    fin_cases i <;> fin_cases j <;> simp [padded, castSucc_two]
  · intro i
    fin_cases i <;> simp [padded, castSucc_two]

/-- C3, at a concrete adapter and matrix. -/
theorem SetMatrixK_getters_witness :
    ∃ rd K4, SetMatrixK { default with TransformCameraToImage := some vtkTransform.New }
        !![1000, 0, 320; 0, 1000, 240; 0, 0, 1] = some rd ∧
      rd.Get3MatrixK = some !![1000, 0, 320; 0, 1000, 240; 0, 0, 1] ∧
      rd.Get4MatrixK = some K4 ∧
      (∀ i j : Fin 3, K4 (Fin.castSucc i) (Fin.castSucc j)
        = (!![1000, 0, 320; 0, 1000, 240; 0, 0, 1] : vtkMatrix3x3) i j) ∧
      (∀ i : Fin 3, K4 (Fin.castSucc i) 3 = 0 ∧ K4 3 (Fin.castSucc i) = 0) ∧
      K4 3 3 = 1 :=
  SetMatrixK_getters _ vtkTransform.New _ rfl

/-- C6: constructing the adapter from a perspective camera with intrinsics `K`, rotation `R`
and translation `T` succeeds; `Get3MatrixK()` is `K` and `GetMatrixTR()` is the matrix with
block `R`, column `T` and bottom row `[0, 0, 0, 1]`. -/
theorem construct_getters (image : vtkImageData) (K R : Matrix (Fin 3) (Fin 3) Double)
    (T : Vec3) :
    ∃ rd RT, construct image (camera.perspective K R T) = some rd ∧
      rd.Get3MatrixK = some K ∧ rd.GetMatrixTR = some RT ∧
      (∀ i j : Fin 3, RT (Fin.castSucc i) (Fin.castSucc j) = R i j) ∧
      (∀ i : Fin 3, RT (Fin.castSucc i) 3 = T i) ∧
      RT 3 0 = 0 ∧ RT 3 1 = 0 ∧ RT 3 2 = 0 ∧ RT 3 3 = 1 := by
  refine ⟨_, poseMatrix R T, construct_eq image K R T, rfl, rfl, ?_, ?_, rfl, rfl, rfl, rfl⟩
  · intro i j
    fin_cases i <;> fin_cases j <;> simp [poseMatrix, castSucc_two]
  · intro i
    fin_cases i <;> simp [poseMatrix, castSucc_two]

/-- C7: from a camera-constructed adapter every sequence of `SetMatrixK`, `SetMatrixRT` and
`SetImage` calls succeeds, and in the state reached the stored K and RT are the arguments of
the most recent setter calls, K4 is the padded K, the world→camera transform holds RT and the
camera→image transform holds K4; `TransformWorldToImagePosition` then agrees with an adapter
freshly constructed from that K and the rotation block and translation column of that RT. -/
theorem cached_transforms_current (image : vtkImageData) (K R : Matrix (Fin 3) (Fin 3) Double)
    (T : Vec3) (calls : List Call) :
    ∃ rd0 rd, construct image (camera.perspective K R T) = some rd0 ∧
      run rd0 calls = some rd ∧
      rd.Get3MatrixK = some (lastK K calls) ∧
      rd.Get4MatrixK = some (padded (lastK K calls)) ∧
      rd.GetMatrixTR = some (lastRT (poseMatrix R T) calls) ∧
      rd.TransformWorldToCamera = some ⟨lastRT (poseMatrix R T) calls⟩ ∧
      rd.TransformCameraToImage = some ⟨padded (lastK K calls)⟩ ∧
      (∀ cs M, calls = cs ++ [Call.SetMatrixRT M] → lastRT (poseMatrix R T) calls = M) ∧
      (∀ cs M, calls = cs ++ [Call.SetMatrixK M] → lastK K calls = M) ∧
      (∀ (image' : vtkImageData) (X : Vec3), ∃ fresh,
        construct image' (camera.perspective (lastK K calls)
          (rotationBlock (lastRT (poseMatrix R T) calls))
          (translationColumn (lastRT (poseMatrix R T) calls))) = some fresh ∧
        rd.TransformWorldToImagePosition X = fresh.TransformWorldToImagePosition X) := by
  obtain ⟨rd0, h0, hs0⟩ := construct_synced image K R T
  obtain ⟨rd, hrun, hs⟩ := run_synced calls rd0 K (poseMatrix R T) hs0
  refine ⟨rd0, rd, h0, hrun, hs.1, hs.2.1, hs.2.2.1, hs.2.2.2.1, hs.2.2.2.2, ?_, ?_, ?_⟩
  · intro cs M hc
    rw [hc, lastRT_append_SetMatrixRT]
  · intro cs M hc
    rw [hc, lastK_append_SetMatrixK]
  · intro image' X
    obtain ⟨fresh, hf, hsf⟩ := construct_synced image' (lastK K calls)
      (rotationBlock (lastRT (poseMatrix R T) calls))
      (translationColumn (lastRT (poseMatrix R T) calls))
    refine ⟨fresh, hf, ?_⟩
    rw [TransformWorldToImagePosition_of_synced _ _ _ hs X,
      TransformWorldToImagePosition_of_synced _ _ _ hsf X, imagePoint_poseMatrix]

/-- C5: when the image has no point-data array, or its first array is not an unsigned-char
array, `GetColorValue` returns normally, leaves the three entries of `rgb` as they were, and
logs one line. -/
theorem GetColorValue_no_color (self : ReconstructionData) (image : vtkImageData)
    (pos : Fin 2 → Int) (rgb : Vec3)
    (hImg : self.Image = some image)
    (hArr : image.PointData = [] ∨ ∃ rest, image.PointData = vtkDataArray.other :: rest) :
    ∃ out, self.GetColorValue pos rgb = some out ∧ (∀ i : Fin 3, out.rgb i = rgb i) ∧
      out.cerr = [CerrLine.noColorArray] := by
  refine ⟨{ rgb := rgb, cerr := [CerrLine.noColorArray] }, ?_, fun _ => rfl, rfl⟩
  rcases hArr with hA | ⟨rest, hA⟩ <;>
    simp [GetColorValue, hImg, vtkImageData.GetArray0, hA, vtkUnsignedCharArray.SafeDownCast]

/-- C5, at an adapter whose image carries a single array that is not an unsigned-char array. -/
theorem GetColorValue_no_color_witness :
    ∃ out, GetColorValue { sampleAdapter with Image := some depthImage } ![1, 0] ![7, 8, 9]
        = some out ∧
      (∀ i : Fin 3, out.rgb i = (![7, 8, 9] : Vec3) i) ∧ out.cerr = [CerrLine.noColorArray] :=
  GetColorValue_no_color _ depthImage ![1, 0] ![7, 8, 9] rfl (Or.inr ⟨[], rfl⟩)

theorem floor_intCast (n : Int) : ((n : ℚ)).floor = n := by
  have h : ⌊(n : ℚ)⌋ = n := Int.floor_intCast n
  exact h

theorem round_toInt (d : Double) (z : Int) (h : Double.toInt (Double.round d) = some z) :
    ∃ s a, d = Double.finite s a ∧ z = (if s then -(a + 1 / 2).floor else (a + 1 / 2).floor) ∧
      isInt z := by
  cases d with
  | nan => simp [Double.round, Double.toInt] at h
  | inf s => simp [Double.round, Double.toInt] at h
  | finite s a =>
    refine ⟨s, a, rfl, ?_⟩
    simp only [Double.round, Double.toInt, floor_intCast] at h
    cases s with
    | true =>
      simp only [if_true] at h ⊢
      split_ifs at h with hr
      have hz := Option.some.inj h
      exact ⟨hz.symm, hz ▸ hr⟩
    | false =>
      simp only [Bool.false_eq_true, if_false] at h ⊢
      split_ifs at h with hr
      have hz := Option.some.inj h
      exact ⟨hz.symm, hz ▸ hr⟩

theorem div_finite_divisor (x y : Double) (s : Bool) (a : ℚ)
    (h : x / y = Double.finite s a) : ∀ t : Bool, y ≠ Double.finite t 0 := by
  intro t hy
  subst hy
  cases x with
  | nan => exact Double.noConfusion h
  | inf u => exact Double.noConfusion h
  | finite u b =>
    have h' : Double.div (Double.finite u b) (Double.finite t 0) = Double.finite s a := h
    simp only [Double.div, if_true] at h'
    split_ifs at h'

/-- C1, amended: in an adapter whose transforms hold `RT` and the padded `K`, the camera-space
point is `c = R·X + T` and the image-space point is `i = K·c`, both computed in double
arithmetic row by row from left to right; when both rounded quotients `round(i[0]/i[2])` and
`round(i[1]/i[2])` convert to `int`, the pixel written is that pair: each entry is the integer
nearest to the double quotient, halves away from zero, it lies in the range of `int`, and
`i[2]` is not a zero. -/
theorem TransformWorldToImagePosition_eq (self : ReconstructionData) (K : vtkMatrix3x3)
    (RT : vtkMatrix4x4) (h : Synced self K RT) (X : Vec3) (px py : Int)
    (hx : Double.toInt (Double.round (imagePoint K RT X 0 / imagePoint K RT X 2)) = some px)
    (hy : Double.toInt (Double.round (imagePoint K RT X 1 / imagePoint K RT X 2)) = some py) :
    self.cameraCoordinate X
        = some (fun i => rotationBlock RT i 0 * X 0 + rotationBlock RT i 1 * X 1
            + rotationBlock RT i 2 * X 2 + translationColumn RT i) ∧
      self.imageCoordinate X
        = some (fun i => K i 0 * cameraPoint RT X 0 + K i 1 * cameraPoint RT X 1
            + K i 2 * cameraPoint RT X 2) ∧
      self.TransformWorldToImagePosition X = some (px, py) ∧
      (∃ s a, imagePoint K RT X 0 / imagePoint K RT X 2 = Double.finite s a ∧
        px = (if s then -(a + 1 / 2).floor else (a + 1 / 2).floor) ∧ isInt px) ∧
      (∃ s a, imagePoint K RT X 1 / imagePoint K RT X 2 = Double.finite s a ∧
        py = (if s then -(a + 1 / 2).floor else (a + 1 / 2).floor) ∧ isInt py) ∧
      (∀ t : Bool, imagePoint K RT X 2 ≠ Double.finite t 0) := by
  obtain ⟨s, a, hq, hpx⟩ := round_toInt _ px hx
  refine ⟨cameraCoordinate_eq self K RT h X, imageCoordinate_eq self K RT h X, ?_,
    ⟨s, a, hq, hpx⟩, round_toInt _ py hy, div_finite_divisor _ _ s a hq⟩
  rw [TransformWorldToImagePosition_of_synced self K RT h X, hx, hy]

/-- C1, at the sample adapter and the world point (1, 1, 1): both rounded quotients convert to
`int` and the pixel is (320, 990). -/
theorem TransformWorldToImagePosition_eq_witness :
    Double.toInt (Double.round (imagePoint sampleK (poseMatrix sampleR sampleT) ![1, 1, 1] 0
        / imagePoint sampleK (poseMatrix sampleR sampleT) ![1, 1, 1] 2)) = some 320 ∧
      Double.toInt (Double.round (imagePoint sampleK (poseMatrix sampleR sampleT) ![1, 1, 1] 1
        / imagePoint sampleK (poseMatrix sampleR sampleT) ![1, 1, 1] 2)) = some 990 ∧
      sampleAdapter.TransformWorldToImagePosition ![1, 1, 1] = some (320, 990) :=
  ⟨by decide!, by decide!,
    (TransformWorldToImagePosition_eq sampleAdapter sampleK (poseMatrix sampleR sampleT)
      sampleAdapter_synced ![1, 1, 1] 320 990 (by decide!) (by decide!)).2.2.1⟩

/-- C1 as stated fails.  At the identity camera the world point (4294967296, 0, 1) has image
point (4294967296, 0, 1), whose third coordinate is 1; the rounded quotients are 4294967296
and 0, and 4294967296 has no conversion to `int`, so no pixel is written.  With translation
(-2^-53, 0, 0) the world point (2.5, 0, 1) gets pixel (3, 0), although `R·X + T` has
first coordinate `2.5 - 2^-53`, whose nearest integer is 2: the sum is rounded to 2.5. -/
theorem TransformWorldToImagePosition_int_range :
    construct emptyImage (camera.perspective identity3 identity3 ![0, 0, 0])
        = some identityAdapter ∧
      (identityAdapter.imageCoordinate ![4294967296, 0, 1]).map (fun i => (i 0, i 1, i 2))
        = some (4294967296, 0, 1) ∧
      (4294967296 : Double) = Double.finite false 4294967296 ∧
      Double.round ((4294967296 : Double) / 1) = Double.finite false 4294967296 ∧
      Double.round ((0 : Double) / 1) = Double.finite false 0 ∧
      Double.toInt (Double.finite false 4294967296) = none ∧
      identityAdapter.TransformWorldToImagePosition ![4294967296, 0, 1] = none ∧
      shiftedAdapter.TransformWorldToImagePosition ![Double.finite false (5 / 2), 0, 1]
        = some (3, 0) ∧
      ((5 / 2 - 1 / 9007199254740992 + 1 / 2 : ℚ)).floor = 2 :=
  ⟨identityAdapter_constructed, by decide!, by decide!, by decide!, by decide!, by decide!,
    by decide!, by decide!, by decide!⟩

theorem narrowToInt_of_isInt (z : Int) (h0 : 0 ≤ z) (h1 : z ≤ Double.INT_MAX) :
    narrowToInt z = z := by
  unfold narrowToInt
  unfold Double.INT_MAX at h1
  omega

theorem GetColorValue_of_tuple (self : ReconstructionData) (image : vtkImageData)
    (data : List (Fin 256)) (rest : List vtkDataArray) (pos : Fin 2 → Int) (rgb : Vec3)
    (n : Nat) (r g b : Fin 256)
    (hImg : self.Image = some image)
    (hArr : image.PointData = vtkDataArray.unsignedChar 3 data :: rest)
    (hrow : isInt (image.GetDimensions 1 - 1) ∧ isInt (image.GetDimensions 1 - 1 - pos 1))
    (hid : narrowToInt (image.ComputePointId ![pos 0, image.GetDimensions 1 - 1 - pos 1, 0])
      = (n : Int))
    (hr : data[3 * n]? = some r) (hg : data[3 * n + 1]? = some g)
    (hb : data[3 * n + 2]? = some b) :
    self.GetColorValue pos rgb
      = some { rgb := ![Double.ofNat r.val, Double.ofNat g.val, Double.ofNat b.val],
               cerr := [] } := by
  simp only [GetColorValue, hImg, vtkImageData.GetArray0, hArr, List.head?_cons,
    vtkUnsignedCharArray.SafeDownCast, hrow, and_self, if_true, hid,
    vtkUnsignedCharArray.GetTuple3, Int.toNat_ofNat, hr, hg, hb, copy_tuple]
  simp

theorem GetColorValue_of_negative_id (self : ReconstructionData) (image : vtkImageData)
    (ncomp : Nat) (data : List (Fin 256)) (rest : List vtkDataArray) (pos : Fin 2 → Int)
    (rgb : Vec3)
    (hImg : self.Image = some image)
    (hArr : image.PointData = vtkDataArray.unsignedChar ncomp data :: rest)
    (hid : narrowToInt (image.ComputePointId ![pos 0, image.GetDimensions 1 - 1 - pos 1, 0])
      < 0) :
    self.GetColorValue pos rgb = none := by
  have hneg : ¬ (0 ≤ narrowToInt
      (image.ComputePointId ![pos 0, image.GetDimensions 1 - 1 - pos 1, 0])) := not_le.mpr hid
  simp only [GetColorValue, hImg, vtkImageData.GetArray0, hArr, List.head?_cons,
    vtkUnsignedCharArray.SafeDownCast, vtkUnsignedCharArray.GetTuple3, hneg, and_false,
    if_false]
  split_ifs <;> rfl

/-- C4, amended: for an image of `w × h` pixels in one slice, extent starting at 0, the height
an `int`, whose first point-data array is a three-component unsigned-char array with a tuple
for every pixel, and a position `(x, y)` with `0 ≤ x < w` and `0 ≤ y < h` whose point id
`x + w·(h−1−y)` is at most `INT_MAX`, `GetColorValue` writes to `rgb` the three components of
the tuple with that point id, that is row `h−1−y`, column `x`. -/
theorem GetColorValue_flipped_row (self : ReconstructionData) (image : vtkImageData)
    (w h : Nat) (data : List (Fin 256)) (rest : List vtkDataArray) (x y : Int) (rgb : Vec3)
    (hImg : self.Image = some image)
    (hExt : image.Extent = ![0, (w : Int) - 1, 0, (h : Int) - 1, 0, 0])
    (hArr : image.PointData = vtkDataArray.unsignedChar 3 data :: rest)
    (hLen : data.length = 3 * (w * h))
    (hh : (h : Int) ≤ Double.INT_MAX)
    (hx0 : 0 ≤ x) (hx : x < w) (hy0 : 0 ≤ y) (hy : y < h)
    (hid : x + w * (h - 1 - y) ≤ Double.INT_MAX) :
    ∃ r g b : Fin 256,
      data[3 * (x + w * (h - 1 - y)).toNat]? = some r ∧
      data[3 * (x + w * (h - 1 - y)).toNat + 1]? = some g ∧
      data[3 * (x + w * (h - 1 - y)).toNat + 2]? = some b ∧
      self.GetColorValue ![x, y] rgb
        = some { rgb := ![Double.ofNat r.val, Double.ofNat g.val, Double.ofNat b.val],
                 cerr := [] } := by
  obtain ⟨x', rfl⟩ := Int.eq_ofNat_of_zero_le hx0
  obtain ⟨k, hk⟩ := Int.eq_ofNat_of_zero_le (show (0 : Int) ≤ h - 1 - y by omega)
  have hkh : k + 1 ≤ h := by omega
  have hx' : x' < w := by exact_mod_cast hx
  have hn : x' + w * k < w * h := by
    calc x' + w * k < w + w * k := by omega
      _ = w * (k + 1) := by ring
      _ ≤ w * h := Nat.mul_le_mul_left w hkh
  have hidn : ((x' : Int) + w * (h - 1 - y)) = ((x' + w * k : Nat) : Int) := by
    rw [hk]; push_cast; ring
  have hdim : image.GetDimensions 1 = (h : Int) := by
    simp [vtkImageData.GetDimensions, hExt]
  have hrow : isInt (image.GetDimensions 1 - 1)
      ∧ isInt (image.GetDimensions 1 - 1 - (![(x' : Int), y] : Fin 2 → Int) 1) := by
    rw [hdim]
    simp only [isInt, Double.INT_MIN, Double.INT_MAX, Matrix.cons_val_one, Matrix.head_cons]
      at hh ⊢
    omega
  have hcp : narrowToInt (image.ComputePointId
      ![(![(x' : Int), y] : Fin 2 → Int) 0,
        image.GetDimensions 1 - 1 - (![(x' : Int), y] : Fin 2 → Int) 1, 0])
      = ((x' + w * k : Nat) : Int) := by
    have e : image.ComputePointId
        ![(![(x' : Int), y] : Fin 2 → Int) 0,
          image.GetDimensions 1 - 1 - (![(x' : Int), y] : Fin 2 → Int) 1, 0]
        = (x' : Int) + w * (h - 1 - y) := by
      simp [vtkImageData.ComputePointId, vtkImageData.GetDimensions, hExt]
      ring
    rw [e, narrowToInt_of_isInt _ (by rw [hidn]; exact Int.natCast_nonneg _) hid, hidn]
  have b0 : 3 * (x' + w * k) < data.length := by omega
  have b1 : 3 * (x' + w * k) + 1 < data.length := by omega
  have b2 : 3 * (x' + w * k) + 2 < data.length := by omega
  rw [hidn, Int.toNat_ofNat]
  exact ⟨data[3 * (x' + w * k)], data[3 * (x' + w * k) + 1], data[3 * (x' + w * k) + 2],
    List.getElem?_eq_getElem b0, List.getElem?_eq_getElem b1, List.getElem?_eq_getElem b2,
    GetColorValue_of_tuple self image data rest _ rgb _ _ _ _ hImg hArr hrow hcp
      (List.getElem?_eq_getElem b0) (List.getElem?_eq_getElem b1)
      (List.getElem?_eq_getElem b2)⟩

/-- C4, at the sample image (2 × 3 pixels): position (1, 0) reads the tuple of point id 5,
row 2 and column 1 of the buffer, which is (50, 51, 52). -/
theorem GetColorValue_flipped_row_witness :
    GetColorValue { sampleAdapter with Image := some sampleImage } ![1, 0] ![7, 8, 9]
      = some { rgb := ![50, 51, 52], cerr := [] } := by
  obtain ⟨r, g, b, hr, hg, hb, hv⟩ := GetColorValue_flipped_row
    { sampleAdapter with Image := some sampleImage } sampleImage 2 3
    [0, 1, 2, 10, 11, 12, 20, 21, 22, 30, 31, 32, 40, 41, 42, 50, 51, 52] [] 1 0 ![7, 8, 9]
    rfl (by simp [sampleImage]) rfl rfl (by decide) (by norm_num) (by norm_num) (by norm_num)
    (by norm_num) (by decide)
  have e : ((1 : Int) + ((2 : Nat) : Int) * (((3 : Nat) : Int) - 1 - 0)).toNat = 5 := by
    decide
  rw [e] at hr hg hb
  simp only [List.getElem?_cons_succ, List.getElem?_cons_zero, Option.some.injEq] at hr hg hb
  rw [hv, ← hr, ← hg, ← hb]
  rfl

/-- C4 as stated fails: in an image of 65536 × 32769 pixels with a tuple for every pixel, the
position (0, 0) has point id 2147483648, whose tuple exists; stored in an `int` the id becomes
-2147483648, no tuple is addressed and nothing defined is written to `rgb`. -/
theorem GetColorValue_id_narrowed :
    largeImage.GetDimensions 0 = 65536 ∧ largeImage.GetDimensions 1 = 32769 ∧
      largeImage.GetDimensions 2 = 1 ∧
      largeData.length = 3 * (65536 * 32769) ∧
      largeData[3 * 2147483648]? = some 0 ∧
      largeImage.ComputePointId ![0, largeImage.GetDimensions 1 - 1 - 0, 0] = 2147483648 ∧
      narrowToInt 2147483648 = -2147483648 ∧
      GetColorValue { sampleAdapter with Image := some largeImage } ![0, 0] ![7, 8, 9]
        = none := by
  have hc : largeImage.ComputePointId ![0, largeImage.GetDimensions 1 - 1 - 0, 0]
      = 2147483648 := by decide
  refine ⟨by decide, by decide, by decide, ?_, ?_, hc, by decide, ?_⟩
  · simp only [largeData, List.length_replicate]
  · simp only [largeData]
    rw [List.getElem?_replicate_of_lt (by norm_num)]
  · refine GetColorValue_of_negative_id _ largeImage 3 largeData [] ![0, 0] ![7, 8, 9]
      rfl rfl ?_
    have hc' : largeImage.ComputePointId
        ![(![0, 0] : Fin 2 → Int) 0,
          largeImage.GetDimensions 1 - 1 - (![0, 0] : Fin 2 → Int) 1, 0] = 2147483648 := hc
    rw [hc']
    decide

theorem Double.add_def (x y : Double) : x + y = Double.add x y := rfl

theorem Double.mul_def (x y : Double) : x * y = Double.mul x y := rfl

theorem Double.neg_def (x : Double) : -x = Double.neg x := rfl

theorem Double.zero_def : (0 : Double) = Double.finite false 0 := rfl

theorem Double.one_def : (1 : Double) = Double.finite false 1 := rfl

theorem Double.signed_zero (s : Bool) : Double.signed s 0 = 0 := by
  cases s <;> simp [Double.signed]

theorem Double.isZero_mul (x z : Double) (hx : x.isFinite = true) (hz : z.isZero) :
    (x * z).isZero := by
  cases x with
  | nan => simp [Double.isFinite] at hx
  | inf s => simp [Double.isFinite] at hx
  | finite s a =>
    cases z with
    | nan => exact hz.elim
    | inf t => exact hz.elim
    | finite t b =>
      have hb : b = 0 := hz
      subst hb
      simp [Double.mul_def, Double.mul, Double.ofMagnitude, Double.isZero]

theorem Double.isZero_add (x y : Double) (hx : x.isZero) (hy : y.isZero) :
    (x + y).isZero := by
  cases x with
  | nan => exact hx.elim
  | inf s => exact hx.elim
  | finite s a =>
    cases y with
    | nan => exact hy.elim
    | inf t => exact hy.elim
    | finite t b =>
      have ha : a = 0 := hx
      have hb : b = 0 := hy
      subst ha hb
      simp only [Double.add_def, Double.add, Double.signed_zero, add_zero, if_true]
      split_ifs <;> rfl

theorem Double.isZero_neg (x : Double) (hx : x.isZero) : (-x).isZero := by
  cases x with
  | nan => exact hx.elim
  | inf s => exact hx.elim
  | finite s a => exact hx

theorem Double.one_mul_of_isValue (x : Double) (hx : x.isValue) : 1 * x = x := by
  cases x with
  | nan => exact hx.elim
  | inf s => exact hx.elim
  | finite s a =>
    have h2 : Double.ofMagnitude s a = Double.finite s a := hx.2
    simp only [Double.mul_def, Double.one_def, Double.mul, Bool.false_xor, one_mul, h2]

theorem Double.isZero_zero_mul (x : Double) (hx : x.isValue) : (0 * x).isZero := by
  cases x with
  | nan => exact hx.elim
  | inf s => exact hx.elim
  | finite s a =>
    simp [Double.mul_def, Double.zero_def, Double.mul, Double.ofMagnitude, Double.isZero]

theorem Double.add_isZero_right (x x' z : Double) (hx : x.isValue) (hx' : x'.numEq x)
    (hz : z.isZero) : (x' + z).numEq x := by
  rcases hx' with rfl | ⟨h1, h2⟩
  · cases x' with
    | nan => exact hx.elim
    | inf s => exact hx.elim
    | finite s a =>
      cases z with
      | nan => exact hz.elim
      | inf t => exact hz.elim
      | finite t b =>
        have hb : b = 0 := hz
        subst hb
        obtain ⟨ha0, hfix⟩ := hx
        simp only [Double.add_def, Double.add, Double.signed_zero, add_zero]
        by_cases ha : a = 0
        · subst ha
          right
          simp only [Double.signed_zero, if_true]
          refine ⟨?_, rfl⟩
          split_ifs <;> rfl
        · have hpos : 0 < a := lt_of_le_of_ne ha0 (Ne.symm ha)
          left
          cases s with
          | true =>
            have h1 : Double.signed true a = -a := rfl
            have h3 : ¬ (-a = 0) := by intro h; exact ha (neg_eq_zero.mp h)
            have h4 : -a < 0 := neg_neg_of_pos hpos
            simp only [h1, h3, if_false, h4, decide_True, abs_neg, abs_of_pos hpos, hfix]
          | false =>
            have h1 : Double.signed false a = a := rfl
            have h4 : ¬ (a < 0) := not_lt.mpr ha0
            simp only [h1, ha, if_false, h4, decide_False, abs_of_pos hpos, hfix]
  · right
    exact ⟨Double.isZero_add x' z h1 hz, h2⟩

theorem Double.add_isZero_left (x z : Double) (hx : x.isValue) (hz : z.isZero) :
    (z + x).numEq x := by
  cases x with
  | nan => exact hx.elim
  | inf s => exact hx.elim
  | finite s a =>
    cases z with
    | nan => exact hz.elim
    | inf t => exact hz.elim
    | finite t b =>
      have hb : b = 0 := hz
      subst hb
      obtain ⟨ha0, hfix⟩ := hx
      simp only [Double.add_def, Double.add, Double.signed_zero, zero_add]
      by_cases ha : a = 0
      · subst ha
        right
        simp only [Double.signed_zero, if_true]
        refine ⟨?_, rfl⟩
        split_ifs <;> rfl
      · have hpos : 0 < a := lt_of_le_of_ne ha0 (Ne.symm ha)
        left
        cases s with
        | true =>
          have h1 : Double.signed true a = -a := rfl
          have h3 : ¬ (-a = 0) := by intro h; exact ha (neg_eq_zero.mp h)
          have h4 : -a < 0 := neg_neg_of_pos hpos
          simp only [h1, h3, if_false, h4, decide_True, abs_neg, abs_of_pos hpos, hfix]
        | false =>
          have h1 : Double.signed false a = a := rfl
          have h4 : ¬ (a < 0) := not_lt.mpr ha0
          simp only [h1, ha, if_false, h4, decide_False, abs_of_pos hpos, hfix]

theorem Double.numEq_neg (x y : Double) (h : x.numEq y) : (-x).numEq (-y) := by
  rcases h with rfl | ⟨h1, h2⟩
  · exact Or.inl rfl
  · exact Or.inr ⟨Double.isZero_neg x h1, Double.isZero_neg y h2⟩

theorem GetCameraCenter_components (self : ReconstructionData) (RT : vtkMatrix4x4)
    (h : self.MatrixRT = some RT) :
    self.GetCameraCenter = some (fun j =>
      -(rotationBlock RT 0 j * translationColumn RT 0
        + rotationBlock RT 1 j * translationColumn RT 1
        + rotationBlock RT 2 j * translationColumn RT 2)) := by
  simp only [GetCameraCenter, h, vtkMatrix4x4.GetElement, Option.some.injEq]
  funext j
  fin_cases j <;> simp [rotationBlock, translationColumn, castSucc_two]

/-- C2, amended: with pose matrix `RT` (block `R`, column `T`), component `j` of
`GetCameraCenter()` is `-(R[0][j]*T[0] + R[1][j]*T[1] + R[2][j]*T[2])` evaluated in double
arithmetic, each product and each sum rounded, from left to right; every component is a zero
when every entry of `T` is a zero and every entry of `R` is finite, and the result is
numerically `-T` when `R` is the identity and every entry of `T` is a finite value. -/
theorem GetCameraCenter_eq (self : ReconstructionData) (RT : vtkMatrix4x4)
    (h : self.MatrixRT = some RT) :
    ∃ c, self.GetCameraCenter = some c ∧
      (∀ j : Fin 3, c j = -(rotationBlock RT 0 j * translationColumn RT 0
        + rotationBlock RT 1 j * translationColumn RT 1
        + rotationBlock RT 2 j * translationColumn RT 2)) ∧
      ((∀ i : Fin 3, (translationColumn RT i).isZero) →
        (∀ i j : Fin 3, (rotationBlock RT i j).isFinite = true) →
        ∀ j : Fin 3, (c j).isZero) ∧
      (rotationBlock RT = 1 → (∀ i : Fin 3, (translationColumn RT i).isValue) →
        ∀ j : Fin 3, (c j).numEq (-translationColumn RT j)) := by
  refine ⟨_, GetCameraCenter_components self RT h, fun _ => rfl, ?_, ?_⟩
  · intro hT hR j
    exact Double.isZero_neg _ (Double.isZero_add _ _
      (Double.isZero_add _ _ (Double.isZero_mul _ _ (hR 0 j) (hT 0))
        (Double.isZero_mul _ _ (hR 1 j) (hT 1)))
      (Double.isZero_mul _ _ (hR 2 j) (hT 2)))
  · intro hR hT j
    apply Double.numEq_neg
    rw [hR]
    fin_cases j
    · have e00 : (1 : Matrix (Fin 3) (Fin 3) Double) 0 0 = 1 := rfl
      have e10 : (1 : Matrix (Fin 3) (Fin 3) Double) 1 0 = 0 := rfl
      have e20 : (1 : Matrix (Fin 3) (Fin 3) Double) 2 0 = 0 := rfl
      show Double.numEq ((1 : Matrix (Fin 3) (Fin 3) Double) 0 0 * translationColumn RT 0
        + (1 : Matrix (Fin 3) (Fin 3) Double) 1 0 * translationColumn RT 1
        + (1 : Matrix (Fin 3) (Fin 3) Double) 2 0 * translationColumn RT 2)
        (translationColumn RT 0)
      rw [e00, e10, e20, Double.one_mul_of_isValue _ (hT 0)]
      exact Double.add_isZero_right _ _ _ (hT 0)
        (Double.add_isZero_right _ _ _ (hT 0) (Or.inl rfl) (Double.isZero_zero_mul _ (hT 1)))
        (Double.isZero_zero_mul _ (hT 2))
    · have e01 : (1 : Matrix (Fin 3) (Fin 3) Double) 0 1 = 0 := rfl
      have e11 : (1 : Matrix (Fin 3) (Fin 3) Double) 1 1 = 1 := rfl
      have e21 : (1 : Matrix (Fin 3) (Fin 3) Double) 2 1 = 0 := rfl
      show Double.numEq ((1 : Matrix (Fin 3) (Fin 3) Double) 0 1 * translationColumn RT 0
        + (1 : Matrix (Fin 3) (Fin 3) Double) 1 1 * translationColumn RT 1
        + (1 : Matrix (Fin 3) (Fin 3) Double) 2 1 * translationColumn RT 2)
        (translationColumn RT 1)
      rw [e01, e11, e21, Double.one_mul_of_isValue _ (hT 1)]
      exact Double.add_isZero_right _ _ _ (hT 1)
        (Double.add_isZero_left _ _ (hT 1) (Double.isZero_zero_mul _ (hT 0)))
        (Double.isZero_zero_mul _ (hT 2))
    · have e02 : (1 : Matrix (Fin 3) (Fin 3) Double) 0 2 = 0 := rfl
      have e12 : (1 : Matrix (Fin 3) (Fin 3) Double) 1 2 = 0 := rfl
      have e22 : (1 : Matrix (Fin 3) (Fin 3) Double) 2 2 = 1 := rfl
      show Double.numEq ((1 : Matrix (Fin 3) (Fin 3) Double) 0 2 * translationColumn RT 0
        + (1 : Matrix (Fin 3) (Fin 3) Double) 1 2 * translationColumn RT 1
        + (1 : Matrix (Fin 3) (Fin 3) Double) 2 2 * translationColumn RT 2)
        (translationColumn RT 2)
      rw [e02, e12, e22, Double.one_mul_of_isValue _ (hT 2)]
      exact Double.add_isZero_left _ _ (hT 2)
        (Double.isZero_add _ _ (Double.isZero_zero_mul _ (hT 0))
          (Double.isZero_zero_mul _ (hT 1)))

/-- C2, at the sample adapter: the camera center is (-2, 1, -3). -/
theorem GetCameraCenter_eq_witness :
    sampleAdapter.MatrixRT = some (poseMatrix sampleR sampleT) ∧
      sampleAdapter.GetCameraCenter.map (fun c => (c 0, c 1, c 2)) = some (-2, 1, -3) := by
  obtain ⟨c, hc, hj, -, -⟩ :=
    GetCameraCenter_eq sampleAdapter (poseMatrix sampleR sampleT) rfl
  refine ⟨rfl, ?_⟩
  rw [hc, Option.map_some', hj 0, hj 1, hj 2]
  decide!

/-- C2 as stated fails.  With first column (1, 1, 0) and translation (2^53, 1, 0) the first
component returned is -9007199254740992, while `-Rᵗ·T` is -9007199254740993: the sum
`2^53 + 1` is rounded.  With an infinite entry in the rotation block and a zero translation the
first component is NaN, not zero. -/
theorem GetCameraCenter_rounded :
    roundingAdapter.GetCameraCenter.map (fun c => c 0)
        = some (Double.finite true 9007199254740992) ∧
      -((1 : ℚ) * 9007199254740992 + 1 * 1 + 0 * 0) = -9007199254740993 ∧
      (Double.finite true 9007199254740992).toRat = -9007199254740992 ∧
      infiniteAdapter.GetCameraCenter.map (fun c => c 0) = some Double.nan :=
  ⟨by decide!, by norm_num, by decide!, by decide!⟩

end ReconstructionData
